import Mathlib

/-!
Verification of the annotation campaign state machine of
src/streamlit_app.py (AnnotatePro).

The dataset store (the pandas DataFrame held in session state) is embedded
as a list of records, one per row, carrying the five annotation columns
of the source plus an opaque payload for the remaining source columns.
Indices are positional, matching the default RangeIndex of the loaded
DataFrame. Timestamps are abstracted as natural numbers.
-/

namespace AnnotatePro

/-- One row of a campaign's DataFrame: the opaque source columns plus the
five annotation columns added by initialize_df. A value of none models a
pandas NaN/None cell ("unset"). -/
structure Record where
  payload : List (String × String)
  label : Option String
  confidence : Option Int
  notes : Option String
  annotated_by : Option String
  annotated_at : Option Nat
deriving DecidableEq

/-- The dataset store of one campaign: the ordered rows of its DataFrame. -/
abbrev Store := List Record

/-- Mirrors line 120: total = len(df). -/
def countTotal (rows : Store) : Nat := rows.length

/-- Mirrors line 121: done = df["label"].notna().sum(). -/
def countAnnotated (rows : Store) : Nat :=
  (rows.filter (fun r => r.label.isSome)).length

/-- Mirrors line 122: remaining = total - done. -/
def countPending (rows : Store) : Nat := countTotal rows - countAnnotated rows

theorem countAnnotated_le_countTotal (rows : Store) :
    countAnnotated rows ≤ countTotal rows :=
  List.length_filter_le _ rows

/-- C3: annotated plus pending equals total, on every dataset store, hence
in particular after every sequence of commits from an initialized store. -/
theorem annot_c3 (rows : Store) :
    countAnnotated rows + countPending rows = countTotal rows := by
  have h := countAnnotated_le_countTotal rows
  unfold countPending
  omega

/-- Mirrors line 156: queue = df[df["label"].isna()], with the positional
index attached as pandas keeps the original RangeIndex labels. -/
def queueOf (rows : Store) : List (Nat × Record) :=
  (List.enum rows).filter (fun p => p.2.label.isNone)

/-- Mirrors lines 157-160: QueueEmpty (none) when queue.empty, otherwise
queue.index[0], the first remaining index. -/
def firstUnannotated (rows : Store) : Option Nat :=
  (queueOf rows).head?.map Prod.fst

/-- Reference recursion computing the first index whose label is unset. -/
def firstNone : Store → Option Nat
  | [] => none
  | r :: rs => if r.label.isNone then some 0 else (firstNone rs).map (· + 1)

theorem head_filter_enumFrom (rows : Store) : ∀ n : Nat,
    (((List.enumFrom n rows).filter (fun q => q.2.label.isNone)).head?.map Prod.fst) =
      (firstNone rows).map (· + n) := by
  induction rows with
  | nil => intro n; rfl
  | cons r rs ih =>
    intro n
    cases hl : r.label with
    | none =>
      simp [List.enumFrom, List.filter, firstNone, hl, Nat.zero_add]
    | some s =>
      simp only [List.enumFrom, List.filter, firstNone, hl, Option.isNone_some,
        cond_false, if_false]
      rw [ih (n + 1)]
      cases firstNone rs with
      | none => rfl
      | some k => simp; omega

theorem firstUnannotated_eq_firstNone (rows : Store) :
    firstUnannotated rows = firstNone rows := by
  unfold firstUnannotated queueOf List.enum
  rw [head_filter_enumFrom rows 0]
  cases firstNone rows <;> simp

theorem firstNone_some (rows : Store) : ∀ i : Nat, firstNone rows = some i →
    i < rows.length ∧ (∃ r, rows.get? i = some r ∧ r.label = none) ∧
      ∀ j r, j < i → rows.get? j = some r → r.label ≠ none := by
  induction rows with
  | nil => intro i h; simp [firstNone] at h
  | cons r rs ih =>
    intro i h
    cases hl : r.label with
    | none =>
      simp [firstNone, hl] at h
      subst h
      exact ⟨Nat.succ_pos _, ⟨r, rfl, hl⟩,
        fun j r hj _ => absurd hj (Nat.not_lt_zero j)⟩
    | some s =>
      simp [firstNone, hl] at h
      obtain ⟨k, hk, rfl⟩ := h
      obtain ⟨h1, h2, h3⟩ := ih k hk
      refine ⟨by simpa using Nat.succ_lt_succ h1, h2, ?_⟩
      intro j rj hj hget
      cases j with
      | zero =>
        simp at hget
        subst hget
        simp [hl]
      | succ j' =>
        exact h3 j' rj (Nat.lt_of_succ_lt_succ hj) (by simpa using hget)

theorem firstNone_none (rows : Store) :
    firstNone rows = none ↔ ∀ r ∈ rows, r.label ≠ none := by
  induction rows with
  | nil => simp [firstNone]
  | cons r rs ih =>
    cases hl : r.label with
    | none => simp [firstNone, hl]
    | some s => simp [firstNone, hl, ih]

/-- C2: the FIRST_UNANNOTATED selector returns the lowest index whose label
is unset when one exists, returns QueueEmpty (none) exactly when no unset
record remains, and is a deterministic pure function of the store (the
embedding is functional: the source selector only reads df). -/
theorem annot_c2 (rows : Store) :
    (∀ i : Nat, firstUnannotated rows = some i →
      i < rows.length ∧ (∃ r, rows.get? i = some r ∧ r.label = none) ∧
        ∀ j r, j < i → rows.get? j = some r → r.label ≠ none) ∧
    (firstUnannotated rows = none ↔ ∀ r ∈ rows, r.label ≠ none) ∧
    (∀ rows2 : Store, rows = rows2 → firstUnannotated rows = firstUnannotated rows2) := by
  refine ⟨?_, ?_, fun rows2 h => by rw [h]⟩
  · rw [firstUnannotated_eq_firstNone]
    exact firstNone_some rows
  · rw [firstUnannotated_eq_firstNone]
    exact firstNone_none rows

/-- Demo store used by concrete witnesses: row 0 annotated, row 1 pending. -/
def demoStore : Store :=
  [⟨[("Text", "Login fails on iOS 17")], some "Bug", some 4, some "", some "alice", some 0⟩,
   ⟨[("Text", "Add dark mode")], none, none, none, none, none⟩]

theorem annot_c2_witness :
    firstUnannotated demoStore = some 1 ∧ 1 < demoStore.length ∧
      (∃ r, demoStore.get? 1 = some r ∧ r.label = none) := by
  have h := (annot_c2 demoStore).1 1 (by rfl)
  exact ⟨by rfl, h.1, h.2.1⟩

/-- Mirrors lines 178-182 of the submit handler: the five cell writes
df.at[idx, "label"] = new_label, ..., df.at[idx, "annotated_at"] = now,
applied to the row at positional index idx. -/
def writeAnnot (rows : Store) (idx : Nat) (lab : String) (conf : Int)
    (nt who : String) (ts : Nat) : Store :=
  match rows, idx with
  | [], _ => []
  | r :: rs, 0 =>
      { r with label := some lab, confidence := some conf, notes := some nt,
               annotated_by := some who, annotated_at := some ts } :: rs
  | r :: rs, n + 1 => r :: writeAnnot rs n lab conf nt who ts

theorem writeAnnot_get (rows : Store) : ∀ (idx : Nat) (lab : String) (conf : Int)
    (nt who : String) (ts : Nat),
    (writeAnnot rows idx lab conf nt who ts).get? idx =
      (rows.get? idx).map (fun r =>
        { r with label := some lab, confidence := some conf, notes := some nt,
                 annotated_by := some who, annotated_at := some ts }) := by
  induction rows with
  | nil => intro idx _ _ _ _ _; cases idx <;> rfl
  | cons r rs ih =>
    intro idx lab conf nt who ts
    cases idx with
    | zero => rfl
    | succ n => simpa [writeAnnot] using ih n lab conf nt who ts

theorem writeAnnot_get_ne (rows : Store) : ∀ (idx j : Nat) (lab : String)
    (conf : Int) (nt who : String) (ts : Nat), j ≠ idx →
    (writeAnnot rows idx lab conf nt who ts).get? j = rows.get? j := by
  induction rows with
  | nil => intro idx _ _ _ _ _ _ _; cases idx <;> rfl
  | cons r rs ih =>
    intro idx j lab conf nt who ts hne
    cases idx with
    | zero =>
      cases j with
      | zero => exact absurd rfl hne
      | succ m => rfl
    | succ n =>
      cases j with
      | zero => rfl
      | succ m => simpa [writeAnnot] using ih n m lab conf nt who ts (fun h => hne (by rw [h]))

theorem writeAnnot_twice (rows : Store) : ∀ (idx : Nat) (lab : String) (conf : Int)
    (nt who : String) (t1 t2 : Nat),
    writeAnnot (writeAnnot rows idx lab conf nt who t1) idx lab conf nt who t2 =
      writeAnnot rows idx lab conf nt who t2 := by
  induction rows with
  | nil => intro idx _ _ _ _ _ _; cases idx <;> rfl
  | cons r rs ih =>
    intro idx lab conf nt who t1 t2
    cases idx with
    | zero => rfl
    | succ n => simp [writeAnnot, ih n]

/-- Validation failures of the submit commit, named as in the spec. -/
inductive AnnotError where
  | invalidLabel
  | invalidConfidence
deriving DecidableEq

/-- Modelled from the spec: the validation layer of applyAnnotation. The
source submit handler (lines 176-182) performs the five writes of
writeAnnot without an explicit validation branch; label membership is
enforced upstream by st.radio over proj["labels"] (line 172) and the
confidence range by st.slider(1, 5) (line 173), so a commit with an
out-of-set label or out-of-range confidence is unreachable in the source.
The spec names these refusals InvalidLabelError and InvalidConfidenceError;
the successful branch is the source's writeAnnot. -/
def applyAnnot (labels : List String) (rows : Store) (idx : Nat) (lab : String)
    (conf : Int) (nt who : String) (ts : Nat) : Except AnnotError Store :=
  if lab ∉ labels then .error .invalidLabel
  else if conf < 1 ∨ 5 < conf then .error .invalidConfidence
  else .ok (writeAnnot rows idx lab conf nt who ts)

/-- The store as the caller sees it after the submit attempt: on a
validation failure no write ran, so the store is unchanged. -/
def submitCommit (labels : List String) (rows : Store) (idx : Nat) (lab : String)
    (conf : Int) (nt who : String) (ts : Nat) : Store :=
  match applyAnnot labels rows idx lab conf nt who ts with
  | .ok rows' => rows'
  | .error _ => rows

/-- C1: a submit with a label outside the campaign's label set fails with
InvalidLabelError, a submit with confidence outside the integer range
[1,5] fails with InvalidConfidenceError, and in either failure case the
store, hence every annotation field of the addressed record, is unchanged. -/
theorem annot_c1 (labels : List String) (rows : Store) (idx : Nat) (lab : String)
    (conf : Int) (nt who : String) (ts : Nat) :
    (lab ∉ labels →
      applyAnnot labels rows idx lab conf nt who ts = .error .invalidLabel ∧
      submitCommit labels rows idx lab conf nt who ts = rows) ∧
    (lab ∈ labels → (conf < 1 ∨ 5 < conf) →
      applyAnnot labels rows idx lab conf nt who ts = .error .invalidConfidence ∧
      submitCommit labels rows idx lab conf nt who ts = rows) := by
  constructor
  · intro h
    have he : applyAnnot labels rows idx lab conf nt who ts = .error .invalidLabel := by
      simp [applyAnnot, h]
    exact ⟨he, by simp [submitCommit, he]⟩
  · intro hmem hconf
    have he : applyAnnot labels rows idx lab conf nt who ts = .error .invalidConfidence := by
      simp [applyAnnot, hmem, hconf]
    exact ⟨he, by simp [submitCommit, he]⟩

theorem annot_c1_witness :
    (applyAnnot ["Critical", "Bug"] demoStore 1 "Unknown" 3 "" "alice" 7 =
        .error .invalidLabel ∧
      submitCommit ["Critical", "Bug"] demoStore 1 "Unknown" 3 "" "alice" 7 = demoStore) ∧
    (applyAnnot ["Critical", "Bug"] demoStore 1 "Bug" 9 "" "alice" 7 =
        .error .invalidConfidence ∧
      submitCommit ["Critical", "Bug"] demoStore 1 "Bug" 9 "" "alice" 7 = demoStore) :=
  ⟨(annot_c1 ["Critical", "Bug"] demoStore 1 "Unknown" 3 "" "alice" 7).1 (by decide),
   (annot_c1 ["Critical", "Bug"] demoStore 1 "Bug" 9 "" "alice" 7).2 (by decide) (by decide)⟩

/-- Outcome of the optional persistence sync of lines 184-192. -/
inductive SyncOutcome where
  | noEngine
  | synced
  | failed
deriving DecidableEq

/-- Mirrors the submit handler of lines 176-194: the five in-memory writes
run first; then, only when proj["engine"] is set, df.to_sql is attempted
inside try/except, whose success is an external event (the syncOk oracle).
The except branch only displays the error; it never touches df. -/
def submitAndSync (rows : Store) (idx : Nat) (lab : String) (conf : Int)
    (nt who : String) (ts : Nat) (hasEngine syncOk : Bool) : Store × SyncOutcome :=
  let rows' := writeAnnot rows idx lab conf nt who ts
  if hasEngine then
    if syncOk then (rows', .synced) else (rows', .failed)
  else (rows', .noEngine)

/-- C5: when the persistence sync fails, the failure is reported and the
five annotation fields written by the commit keep the submitted values;
the resulting store is identical to the one a successful sync leaves. -/
theorem annot_c5 (rows : Store) (idx : Nat) (lab : String) (conf : Int)
    (nt who : String) (ts : Nat) :
    (submitAndSync rows idx lab conf nt who ts true false).2 = .failed ∧
    (submitAndSync rows idx lab conf nt who ts true false).1.get? idx =
      (rows.get? idx).map (fun r =>
        { r with label := some lab, confidence := some conf, notes := some nt,
                 annotated_by := some who, annotated_at := some ts }) ∧
    (submitAndSync rows idx lab conf nt who ts true false).1 =
      (submitAndSync rows idx lab conf nt who ts true true).1 := by
  refine ⟨rfl, ?_, rfl⟩
  simpa [submitAndSync] using writeAnnot_get rows idx lab conf nt who ts

/-- C8: the submit commit overwrites all five annotation fields regardless
of the record's previous annotation state, and submitting the same
judgment twice collapses to a single commit carrying the second timestamp,
so the final label, confidence, notes and annotatorId are those of a
single submission and only annotated_at reflects the later commit. -/
theorem annot_c8 (rows : Store) (idx : Nat) (lab : String) (conf : Int)
    (nt who : String) (t1 t2 : Nat) :
    (writeAnnot rows idx lab conf nt who t2).get? idx =
      (rows.get? idx).map (fun r =>
        { r with label := some lab, confidence := some conf, notes := some nt,
                 annotated_by := some who, annotated_at := some t2 }) ∧
    writeAnnot (writeAnnot rows idx lab conf nt who t1) idx lab conf nt who t2 =
      writeAnnot rows idx lab conf nt who t2 :=
  ⟨writeAnnot_get rows idx lab conf nt who t2,
   writeAnnot_twice rows idx lab conf nt who t1 t2⟩

/-- Mirrors line 204: low_df = df[df["confidence"].fillna(5).astype(float) <= 2],
as the list of positional indices of the retained rows (the df index). -/
def lowConfIdx (rows : Store) : List Nat :=
  ((List.enum rows).filter (fun p => decide (p.2.confidence.getD 5 ≤ 2))).map Prod.fst

/-- Stated from the spec's words for comparison: the indices whose
confidence is set and at most 2, in index order. -/
def lowConfSpecIdx (rows : Store) : List Nat :=
  ((List.enum rows).filter (fun p =>
    match p.2.confidence with
    | some c => decide (c ≤ 2)
    | none => false)).map Prod.fst

/-- C6: the fillna(5) filter of the source computes exactly the spec's
ordered sequence of indices with set confidence at most 2; a record with
unset confidence is never listed. -/
theorem annot_c6 (rows : Store) :
    lowConfIdx rows = lowConfSpecIdx rows ∧
    ∀ i : Nat, i ∈ lowConfIdx rows ↔
      ∃ r c, rows.get? i = some r ∧ r.confidence = some c ∧ c ≤ 2 := by
  have hcong : lowConfIdx rows = lowConfSpecIdx rows := by
    unfold lowConfIdx lowConfSpecIdx
    congr 1
    apply List.filter_congr
    intro p _
    cases hc : p.2.confidence with
    | none => simp [hc]
    | some c => simp [hc]
  refine ⟨hcong, ?_⟩
  intro i
  rw [hcong]
  unfold lowConfSpecIdx
  constructor
  · intro h
    obtain ⟨⟨j, r⟩, hmem, hfst⟩ := List.mem_map.mp h
    obtain ⟨henum, hpred⟩ := List.mem_filter.mp hmem
    cases hc : r.confidence with
    | none => simp [hc] at hpred
    | some c =>
      refine ⟨r, c, ?_, hc, ?_⟩
      · have := List.mk_mem_enum_iff_get?.mp henum
        simpa [← hfst] using this
      · simp [hc] at hpred
        exact hpred
  · intro ⟨r, c, hget, hc, hle⟩
    apply List.mem_map.mpr
    refine ⟨(i, r), List.mem_filter.mpr ⟨?_, ?_⟩, rfl⟩
    · exact List.mk_mem_enum_iff_get?.mpr (by simpa using hget)
    · simp [hc, hle]

theorem annot_c6_witness :
    (1 ∈ lowConfIdx
      [⟨[], some "Bug", some 4, some "", some "alice", some 0⟩,
       ⟨[], some "Critical", some 1, some "", some "alice", some 1⟩,
       ⟨[], none, none, none, none, none⟩]) ∧
    lowConfIdx
      [⟨[], some "Bug", some 4, some "", some "alice", some 0⟩,
       ⟨[], some "Critical", some 1, some "", some "alice", some 1⟩,
       ⟨[], none, none, none, none, none⟩] = [1] :=
  ⟨((annot_c6 _).2 1).mpr ⟨⟨[], some "Critical", some 1, some "", some "alice", some 1⟩,
      1, rfl, rfl, by decide⟩,
   by rfl⟩

/-- The labels of the annotated records, in row order: the non-null values
of df["label"]. -/
def annotLabels (rows : Store) : List String :=
  rows.filterMap (fun r => r.label)

/-- Mirrors lines 138-139: df["label"].value_counts() as the list of
(label, count) pairs over the distinct non-null labels. The source orders
the pairs by descending count; no claim here depends on that order. -/
def labelDistribution (rows : Store) : List (String × Nat) :=
  (annotLabels rows).dedup.map (fun l => (l, (annotLabels rows).count l))

theorem annotLabels_length (rows : Store) :
    (annotLabels rows).length = countAnnotated rows := by
  induction rows with
  | nil => rfl
  | cons r rs ih =>
    cases hl : r.label with
    | none => simpa [annotLabels, countAnnotated, List.filterMap_cons, hl,
        List.filter_cons] using ih
    | some s => simpa [annotLabels, countAnnotated, List.filterMap_cons, hl,
        List.filter_cons] using ih

/-- C7: every entry of labelDistribution is an exact label string occurring
among the annotated records with its exact multiplicity, and the counts
sum to countAnnotated. -/
theorem annot_c7 (rows : Store) :
    ((labelDistribution rows).map Prod.snd).sum = countAnnotated rows ∧
    ∀ p : String × Nat, p ∈ labelDistribution rows →
      p.1 ∈ annotLabels rows ∧ p.2 = (annotLabels rows).count p.1 := by
  constructor
  · unfold labelDistribution
    rw [List.map_map]
    have : (Prod.snd ∘ fun l => (l, (annotLabels rows).count l)) =
        fun l => (annotLabels rows).count l := rfl
    rw [this, List.sum_map_count_dedup_eq_length, annotLabels_length]
  · intro p hp
    obtain ⟨l, hl, hpl⟩ := List.mem_map.mp hp
    cases hpl
    exact ⟨List.mem_dedup.mp hl, rfl⟩

theorem annot_c7_witness :
    ("Bug" ∈ annotLabels demoStore ∧
      1 = (annotLabels demoStore).count "Bug") ∧
    ((labelDistribution demoStore).map Prod.snd).sum = countAnnotated demoStore :=
  ⟨(annot_c7 demoStore).2 ("Bug", 1) (by decide), (annot_c7 demoStore).1⟩

/-- The (annotated_by, label) pairs of the rows where both are non-null:
pd.crosstab drops a row when either series has a NaN there. -/
def annotPairs (rows : Store) : List (String × String) :=
  rows.filterMap (fun r =>
    match r.annotated_by, r.label with
    | some a, some l => some (a, l)
    | _, _ => none)

/-- Mirrors lines 208-211: perf = pd.crosstab(df["annotated_by"], df["label"]).
The result is a table whose row index is the distinct observed annotators,
whose columns are the distinct observed labels, and whose cell (a, l) is
the number of rows annotated by a with label l — including 0 cells for
combinations that never co-occur. pandas sorts the margins; the claims
here do not depend on that order, so first-occurrence order is used. -/
def annotatorActivity (rows : Store) : List (String × List (String × Nat)) :=
  (((annotPairs rows).map Prod.fst).dedup).map (fun a =>
    (a, (((annotPairs rows).map Prod.snd).dedup).map (fun l =>
      (l, (annotPairs rows).count (a, l)))))

/-- Two records annotated by different people with different labels: the
crosstab margins are both of size two, so two zero cells appear. -/
def crossStore : Store :=
  [⟨[], some "X", some 3, some "", some "A", some 0⟩,
   ⟨[], some "Y", some 3, some "", some "B", some 1⟩]

/-- C9 counterexample: in crossStore the pair (annotator A, label Y) occurs
in no record, yet annotatorActivity lists it under A with a zero-filled
count, contradicting the claim that zero-occurrence pairs are absent. -/
theorem annot_c9_cex :
    (annotPairs crossStore).count ("A", "Y") = 0 ∧
    annotatorActivity crossStore =
      [("A", [("X", 1), ("Y", 0)]), ("B", [("X", 0), ("Y", 1)])] :=
  ⟨by decide, by decide⟩

/-- C9 amended: annotatorActivity is a cross-tabulation dense over the
observed margins. An annotator appears iff it annotated some record with a
non-null label, and every appearing annotator carries one entry per
observed label holding the exact co-occurrence count — which is 0 when the
two margin values never co-occur; annotators and labels with no
occurrences at all are absent. -/
theorem annot_c9 (rows : Store) :
    (∀ a m, (a, m) ∈ annotatorActivity rows →
      (∃ l, (a, l) ∈ annotPairs rows) ∧
      ∀ l c, (l, c) ∈ m →
        (∃ a2, (a2, l) ∈ annotPairs rows) ∧ c = (annotPairs rows).count (a, l)) ∧
    (∀ a l, (∃ x, (a, x) ∈ annotPairs rows) → (∃ y, (y, l) ∈ annotPairs rows) →
      ∃ m, (a, m) ∈ annotatorActivity rows ∧
        (l, (annotPairs rows).count (a, l)) ∈ m) := by
  constructor
  · intro a m hm
    obtain ⟨a', ha', heq⟩ := List.mem_map.mp hm
    rw [Prod.mk.injEq] at heq
    obtain ⟨rfl, rfl⟩ := heq
    constructor
    · obtain ⟨⟨a2, l2⟩, hpair, hfst⟩ :=
        List.mem_map.mp (List.mem_dedup.mp ha')
      exact ⟨l2, by simpa [← hfst] using hpair⟩
    · intro l c hlc
      obtain ⟨l', hl', heq⟩ := List.mem_map.mp hlc
      rw [Prod.mk.injEq] at heq
      obtain ⟨rfl, rfl⟩ := heq
      refine ⟨?_, rfl⟩
      obtain ⟨⟨a2, l2⟩, hpair, hsnd⟩ :=
        List.mem_map.mp (List.mem_dedup.mp hl')
      exact ⟨a2, by simpa [← hsnd] using hpair⟩
  · intro a l ⟨x, hx⟩ ⟨y, hy⟩
    refine ⟨_, List.mem_map.mpr ⟨a, ?_, rfl⟩, List.mem_map.mpr ⟨l, ?_, rfl⟩⟩
    · exact List.mem_dedup.mpr (List.mem_map.mpr ⟨(a, x), hx, rfl⟩)
    · exact List.mem_dedup.mpr (List.mem_map.mpr ⟨(y, l), hy, rfl⟩)

theorem annot_c9_witness :
    ∃ m, ("A", m) ∈ annotatorActivity crossStore ∧
      ("Y", (annotPairs crossStore).count ("A", "Y")) ∈ m :=
  (annot_c9 crossStore).2 "A" "Y" ⟨"X", by decide⟩ ⟨"B", by decide⟩

/-- Python str.split with a one-character separator: splits at every
occurrence and keeps empty pieces, so the result always has at least one
piece (the empty string splits to one empty piece). -/
def pySplit (sep : Char) : List Char → List (List Char)
  | [] => [[]]
  | c :: cs =>
    if c = sep then [] :: pySplit sep cs
    else
      match pySplit sep cs with
      | [] => [[c]]
      | piece :: rest => (c :: piece) :: rest

/-- Python str.strip: drops whitespace from both ends. -/
def pyStrip (cs : List Char) : List Char :=
  ((cs.dropWhile Char.isWhitespace).reverse.dropWhile Char.isWhitespace).reverse

/-- Mirrors line 41: [l.strip() for l in labels.split(",")]. -/
def parseLabels (labelsSpec : String) : List String :=
  (pySplit ',' labelsSpec.data).map (fun cs => (pyStrip cs).asString)

/-- One campaign table: a row count and the ordered named columns, each a
list of cells (none models a NaN/None cell). -/
structure Table where
  nrows : Nat
  cols : List (String × List (Option String))
deriving DecidableEq

/-- The five annotation columns of line 35, in source order. -/
def annotColNames : List String :=
  ["label", "confidence", "notes", "annotated_by", "annotated_at"]

/-- One step of the loop of lines 35-37: df[col] = None when col is
absent, which appends a new all-None column; otherwise no change. -/
def addCol (t : Table) (c : String) : Table :=
  if c ∈ t.cols.map Prod.fst then t
  else ⟨t.nrows, t.cols ++ [(c, List.replicate t.nrows none)]⟩

/-- The loop of lines 35-37 over the five annotation columns, run on the
copy made at line 34 (the embedding is pure, matching df = df.copy()). -/
def ensureAnnotCols (t : Table) : Table :=
  annotColNames.foldl addCol t

/-- Mirrors lines 32-46: initialize_df returns the campaign config holding
the augmented copy of the table, the split-and-stripped label list, the
creation timestamp and the optional persistence binding. -/
structure CampaignConfig where
  df : Table
  labels : List String
  created_at : Nat
  engine : Bool
  table_name : Option String
deriving DecidableEq

def initialize_df (df : Table) (labels : String) (engine : Bool)
    (table_name : Option String) (now : Nat) : CampaignConfig :=
  { df := ensureAnnotCols df, labels := parseLabels labels,
    created_at := now, engine := engine, table_name := table_name }

theorem pySplit_ne_nil (sep : Char) (cs : List Char) : pySplit sep cs ≠ [] := by
  induction cs with
  | nil => simp [pySplit]
  | cons c cs ih =>
    unfold pySplit
    by_cases h : c = sep
    · simp [h]
    · simp only [h, if_false]
      cases pySplit sep cs <;> simp

/-- C4: the campaign's label set is exactly labelsSpec split on commas with
each piece stripped, and that list is never empty, so the nonempty-label-set
invariant holds on every input and the empty-set failure branch named by
the spec can never be triggered. -/
theorem annot_c4 (df : Table) (labelsSpec : String) (engine : Bool)
    (table_name : Option String) (now : Nat) :
    (initialize_df df labelsSpec engine table_name now).labels =
      (pySplit ',' labelsSpec.data).map (fun cs => (pyStrip cs).asString) ∧
    (initialize_df df labelsSpec engine table_name now).labels ≠ [] := by
  refine ⟨rfl, ?_⟩
  show parseLabels labelsSpec ≠ []
  unfold parseLabels
  simpa using pySplit_ne_nil ',' labelsSpec.data

theorem foldl_addCol_spec (cs : List String) : ∀ t : Table, cs.Nodup →
    (cs.foldl addCol t).nrows = t.nrows ∧
    (cs.foldl addCol t).cols = t.cols ++
      (cs.filter (fun c => decide (c ∉ t.cols.map Prod.fst))).map
        (fun c => (c, List.replicate t.nrows none)) := by
  induction cs with
  | nil => intro t _; simp
  | cons c cs ih =>
    intro t hnd
    rw [List.nodup_cons] at hnd
    obtain ⟨hc_cs, hnd'⟩ := hnd
    rw [List.foldl_cons]
    by_cases hc : c ∈ t.cols.map Prod.fst
    · have ht : addCol t c = t := by simp [addCol, hc]
      rw [ht]
      obtain ⟨h1, h2⟩ := ih t hnd'
      refine ⟨h1, ?_⟩
      rw [h2]
      congr 1
      congr 1
      simp [List.filter_cons, hc]
    · have ht : addCol t c = ⟨t.nrows, t.cols ++ [(c, List.replicate t.nrows none)]⟩ := by
        simp [addCol, hc]
      rw [ht]
      obtain ⟨h1, h2⟩ := ih ⟨t.nrows, t.cols ++ [(c, List.replicate t.nrows none)]⟩ hnd'
      refine ⟨h1, ?_⟩
      rw [h2]
      have hfc : (cs.filter (fun d => decide
          (d ∉ (t.cols ++ [(c, List.replicate t.nrows none)]).map Prod.fst))) =
          (cs.filter (fun d => decide (d ∉ t.cols.map Prod.fst))) := by
        apply List.filter_congr
        intro d hd
        have hdc : d ≠ c := fun h => hc_cs (h ▸ hd)
        simp [hdc]
      simp only [hfc]
      rw [List.filter_cons]
      simp [hc, List.append_assoc]

/-- A table with one row and a pre-existing label column, for the witness. -/
def demoTable : Table :=
  ⟨1, [("Text", [some "hello"]), ("label", [some "Bug"])]⟩

/-- C10 (implicit frame effect): initialize_df works on a copy (the
embedding is pure, as the source copies the frame before mutating), keeps
the row count, appends exactly the annotation columns that were absent,
each filled with none for every row, and leaves every pre-existing column
— including annotation columns already present — in place with its values
unchanged. -/
theorem annot_c10 (t : Table) :
    (ensureAnnotCols t).nrows = t.nrows ∧
    (ensureAnnotCols t).cols = t.cols ++
      (annotColNames.filter (fun c => decide (c ∉ t.cols.map Prod.fst))).map
        (fun c => (c, List.replicate t.nrows none)) ∧
    ∀ p, p ∈ t.cols → p ∈ (ensureAnnotCols t).cols := by
  have h := foldl_addCol_spec annotColNames t (by decide)
  refine ⟨h.1, h.2, ?_⟩
  intro p hp
  rw [show ensureAnnotCols t = annotColNames.foldl addCol t from rfl, h.2]
  exact List.mem_append_left _ hp

theorem annot_c10_witness :
    ("label", [some "Bug"]) ∈ (ensureAnnotCols demoTable).cols ∧
    (ensureAnnotCols demoTable).cols =
      [("Text", [some "hello"]), ("label", [some "Bug"]),
       ("confidence", [none]), ("notes", [none]),
       ("annotated_by", [none]), ("annotated_at", [none])] :=
  ⟨(annot_c10 demoTable).2.2 ("label", [some "Bug"]) (by decide), by decide⟩

theorem annot_c3_witness :
    countAnnotated demoStore + countPending demoStore = countTotal demoStore :=
  annot_c3 demoStore

theorem annot_c4_witness :
    (initialize_df demoTable " A ,B" false none 0).labels ≠ [] ∧
    (initialize_df demoTable " A ,B" false none 0).labels = ["A", "B"] :=
  ⟨(annot_c4 demoTable " A ,B" false none 0).2, by decide⟩

theorem annot_c5_witness :
    (submitAndSync demoStore 1 "Bug" 4 "n" "bob" 9 true false).2 = SyncOutcome.failed :=
  (annot_c5 demoStore 1 "Bug" 4 "n" "bob" 9).1

theorem annot_c8_witness :
    writeAnnot (writeAnnot demoStore 1 "Bug" 4 "n" "bob" 1) 1 "Bug" 4 "n" "bob" 2 =
      writeAnnot demoStore 1 "Bug" 4 "n" "bob" 2 :=
  (annot_c8 demoStore 1 "Bug" 4 "n" "bob" 1 2).2

end AnnotatePro
